import Mathlib

/-!
# SafeKey credential vault — verification of the core engine

Shallow embedding of the credential cryptography and synchronization engine of
the SafeKey client (`credentials.ts`, `walrus.ts`, the master-key manager, the
secure persistence manager, the dashboard pending-save loop and the extension
heartbeat API).  Byte buffers (`Uint8Array`) are modelled as `List Nat` whose
elements are byte values; `Uint8Array` element assignment wraps modulo 256,
written explicitly where it matters.  External collaborators (JSON parser,
WebCrypto encryption, the Sui ledger, the Walrus blob store) are passed in as
function parameters, so theorems quantify over their behaviour.
-/

namespace SafeKey

/-- Result of `JSON.parse`: a JSON value.  The repository's own logic only
inspects the parsed value (array-ness, element types); parsing itself is the
external JS library. -/
inductive Json where
  | jnull : Json
  | jbool : Bool → Json
  | jnum  : Int → Json
  | jstr  : String → Json
  | jarr  : List Json → Json
  | jobj  : List (String × Json) → Json

/-- A decrypted credential, `interface Credential` in `credentials.ts`. -/
structure Credential where
  domain : String
  username : String
  password : String
deriving DecidableEq, Repr

/-- The on-ledger dynamic-field record read by
`getCredentialInfoFromDynamicField`: `data`, `entryNonce`, `sessionNonce`. -/
structure RecInfo where
  data : List Nat
  entryNonce : List Nat
  sessionNonce : List Nat

/-! ## Envelope codec

`saveCredential` (credentials.ts lines 90–100) builds the blob
`[snLen (1 byte)] [sessionNonce] [ivLen (1 byte)] [iv] [ciphertext]`.
The length bytes are `Uint8Array` element writes and therefore wrap mod 256.
-/

/-- Envelope encoder from `saveCredential`: one length byte (mod 256), nonce
bytes, one length byte (mod 256), IV bytes, then the ciphertext. -/
def encodeBlob (sn iv ct : List Nat) : List Nat :=
  (sn.length % 256) :: (sn ++ (iv.length % 256) :: (iv ++ ct))

/-- Envelope decoder from the per-blob loop in `getCredential`
(credentials.ts lines 310–330): guards `length < 3`,
`length < 1 + snLen + 1` and `length < offset + ivLen` each `continue`
(modelled as `none`); on success the three slices are returned. -/
def decodeBlob (b : List Nat) : Option (List Nat × List Nat × List Nat) :=
  if b.length < 3 then none
  else if b.length < 1 + b.getD 0 0 + 1 then none
  else if b.length < (2 + b.getD 0 0) + b.getD (1 + b.getD 0 0) 0 then none
  else some ((b.drop 1).take (b.getD 0 0),
             (b.drop (2 + b.getD 0 0)).take (b.getD (1 + b.getD 0 0) 0),
             b.drop (2 + b.getD 0 0 + b.getD (1 + b.getD 0 0) 0))

/-- The nonce length a buffer declares in its first header byte. -/
def declaredSnLen (b : List Nat) : Nat := b.getD 0 0

/-- The IV length a buffer declares in its second header byte (located after
the declared nonce bytes). -/
def declaredIvLen (b : List Nat) : Nat := b.getD (1 + declaredSnLen b) 0

/-! ### Codec lemmas -/

theorem getD_append_length (xs ys : List Nat) (d : Nat) :
    (xs ++ ys).getD xs.length d = ys.getD 0 d := by
  induction xs with
  | nil => rfl
  | cons a t ih => simpa using ih

theorem encodeBlob_length (sn iv ct : List Nat) :
    (encodeBlob sn iv ct).length = 2 + sn.length + iv.length + ct.length := by
  simp [encodeBlob]; omega

theorem encodeBlob_declaredSn (sn iv ct : List Nat) :
    declaredSnLen (encodeBlob sn iv ct) = sn.length % 256 := rfl

theorem encodeBlob_getD_ivByte (sn iv ct : List Nat) :
    (encodeBlob sn iv ct).getD (1 + sn.length) 0 = iv.length % 256 := by
  have h := getD_append_length sn ((iv.length % 256) :: (iv ++ ct)) 0
  rw [encodeBlob, Nat.add_comm 1 sn.length, List.getD_cons_succ]
  simpa using h

/-- On a well-formed envelope (declared lengths within one byte and at least
one payload byte overall) the decoder recovers the three encoded fields. -/
theorem decodeBlob_encodeBlob (sn iv ct : List Nat)
    (hsn : sn.length ≤ 255) (hiv : iv.length ≤ 255)
    (hne : 1 ≤ sn.length + iv.length + ct.length) :
    decodeBlob (encodeBlob sn iv ct) = some (sn, iv, ct) := by
  have hsn' : sn.length % 256 = sn.length := Nat.mod_eq_of_lt (by omega)
  have hiv' : iv.length % 256 = iv.length := Nat.mod_eq_of_lt (by omega)
  have hlen := encodeBlob_length sn iv ct
  have hsnD : (encodeBlob sn iv ct).getD 0 0 = sn.length := by
    have := encodeBlob_declaredSn sn iv ct
    rw [declaredSnLen] at this
    rw [this, hsn']
  have hivByte : (encodeBlob sn iv ct).getD (1 + sn.length) 0 = iv.length := by
    rw [encodeBlob_getD_ivByte, hiv']
  have hdrop1 : (encodeBlob sn iv ct).drop 1 = sn ++ (iv.length % 256) :: (iv ++ ct) := by
    simp [encodeBlob]
  have hsnSlice : ((encodeBlob sn iv ct).drop 1).take sn.length = sn := by
    rw [hdrop1]
    exact List.take_left sn _
  have hdrop2 : (encodeBlob sn iv ct).drop (2 + sn.length) = iv ++ ct := by
    have h1 : (2 + sn.length) = 1 + (sn.length + 1) := by omega
    rw [h1, ← List.drop_drop, hdrop1]
    have h2 : sn.length + 1 = (sn ++ [iv.length % 256]).length := by simp
    have h3 : sn ++ (iv.length % 256) :: (iv ++ ct) = (sn ++ [iv.length % 256]) ++ (iv ++ ct) := by
      simp
    rw [h3, h2, List.drop_left]
  have hivSlice : ((encodeBlob sn iv ct).drop (2 + sn.length)).take iv.length = iv := by
    rw [hdrop2]; exact List.take_left iv ct
  have hctSlice : (encodeBlob sn iv ct).drop (2 + sn.length + iv.length) = ct := by
    rw [← List.drop_drop, hdrop2, List.drop_left]
  rw [decodeBlob, hsnD, if_neg (by omega), if_neg (by omega), hivByte,
    if_neg (by omega), hsnSlice, hivSlice, hctSlice]

/-- Anatomy of a successful decode: the field lengths match the declared
header bytes and together account for the whole buffer (so no byte outside
the buffer was read and no field is partial). -/
theorem decodeBlob_some_lengths (b sn iv ct : List Nat)
    (h : decodeBlob b = some (sn, iv, ct)) :
    sn.length = declaredSnLen b ∧ iv.length = declaredIvLen b ∧
      b.length = 2 + sn.length + iv.length + ct.length := by
  rw [decodeBlob] at h
  by_cases h3 : b.length < 3
  · rw [if_pos h3] at h; cases h
  rw [if_neg h3] at h
  by_cases h4 : b.length < 1 + b.getD 0 0 + 1
  · rw [if_pos h4] at h; cases h
  rw [if_neg h4] at h
  by_cases h5 : b.length < (2 + b.getD 0 0) + b.getD (1 + b.getD 0 0) 0
  · rw [if_pos h5] at h; cases h
  rw [if_neg h5] at h
  have h' := Option.some.inj h
  have hsn := congrArg (fun p => p.1) h'
  have hiv := congrArg (fun p => p.2.1) h'
  have hct := congrArg (fun p => p.2.2) h'
  simp only at hsn hiv hct
  have hsnlen : sn.length = b.getD 0 0 := by
    rw [← hsn, List.length_take, List.length_drop]; omega
  have hivlen : iv.length = b.getD (1 + b.getD 0 0) 0 := by
    rw [← hiv, List.length_take, List.length_drop]; omega
  have hctlen : ct.length = b.length - (2 + b.getD 0 0 + b.getD (1 + b.getD 0 0) 0) := by
    rw [← hct, List.length_drop]
  simp only [declaredSnLen, declaredIvLen]
  refine ⟨hsnlen, hivlen, ?_⟩
  omega

/-! ## Format detector

`getCredential` (credentials.ts lines 233–252) and `getCredentialByDomainHash`
(lines 414–427) classify a record: decode `info.data` as text, `JSON.parse`
it, and accept it as the current (Walrus) format exactly when
`Array.isArray(parsed) && parsed.every(x => typeof x === 'string' && x.length > 0)`;
every parse exception (including the deliberately thrown
`'Data is not a blob-id array'`) is caught and routes to the legacy on-chain
decrypt path.
-/

/-- The element test `typeof x === 'string' && x.length > 0`. -/
def jsonStrOk : Json → Bool
  | Json.jstr s => s.length != 0
  | _ => false

/-- Extract the string out of a JSON string value. -/
def jsonStr : Json → Option String
  | Json.jstr s => some s
  | _ => none

/-- Classification from the source: `some blobIds` when the parsed payload is
a JSON array whose elements all pass `jsonStrOk` (the code then uses the
array as the blob-id list), `none` when parsing failed or the array test
failed (legacy path).  The argument is the result of `JSON.parse`
(`none` = the parse threw). -/
def classify : Option Json → Option (List String)
  | some (Json.jarr xs) =>
      if xs.all jsonStrOk then some (xs.filterMap jsonStr) else none
  | _ => none

/-- Modelled from the spec's words only (for comparison with `classify`):
a record is current when the payload parses as a NON-EMPTY JSON array of
non-empty strings. -/
def specIsCurrent : Option Json → Bool
  | some (Json.jarr xs) => !xs.isEmpty && xs.all jsonStrOk
  | _ => false

/-! ## Save-side payload update

`saveCredential` (credentials.ts lines 124–147): when the dynamic field
already exists, fetch it, try to `JSON.parse` its `data`; keep the parsed
value when it is an array (`Array.isArray` is the only check here), start
from `[]` otherwise, then `push` the freshly stored blob id. -/

/-- The existing blob-id array `saveCredential` starts from.  `fetched` is
`none` when the credential does not exist on-chain (no fetch is made),
`some none` when `getCredentialInfoFromDynamicField` returned `null`,
`some (some pj)` for a fetched record whose data parsed to `pj`
(`pj = none` = `JSON.parse` threw). -/
def priorBlobIds : Bool → Option (Option (Option Json)) → List Json
  | true, some (some (some (Json.jarr xs))) => xs
  | _, _ => []

/-- The array written back to the ledger: the prior array with the new blob
id pushed at the end (`blobIds.push(blobId)`). -/
def newPayload (credExists : Bool) (fetched : Option (Option (Option Json)))
    (newId : String) : List Json :=
  priorBlobIds credExists fetched ++ [Json.jstr newId]

/-! ## Read-side orchestration (`getCredential`)

External collaborators appear as parameters: `parse` is
`TextDecoder ∘ JSON.parse` on the record's data, `fetch` is the per-blob
outcome of `retrieveBlobs` (walrus.ts builds the map in blob-id order,
skipping failed fetches), `legacyDec` is the legacy-path
`deriveKS`/`decrypt`/`JSON.parse`/field-validation composite (`Except.error`
= it threw, which `getCredential` propagates), and `decf` is the same
composite for the current path (`none` = any step threw or a field check
failed, which the per-blob `try`/`catch` turns into `continue`). -/

/-- One iteration of the per-blob loop in `getCredential`: envelope-decode,
then decrypt/parse/validate; any failure skips the blob. -/
def processBlob (decf : List Nat → List Nat → List Nat → Option (String × String))
    (domain : String) (b : List Nat) : Option Credential :=
  match decodeBlob b with
  | none => none
  | some (sn, iv, ct) =>
    match decf sn iv ct with
    | none => none
    | some (u, p) => some ⟨domain, u, p⟩

/-- `getCredential` (credentials.ts lines 193–373).  Returns
`Except.error ()` when the legacy path throws, `Except.ok none` for the
`return null` exits, `Except.ok (some creds)` on success.  (`retrieveBlobs`
keys its map by blob id, so duplicate ids would be merged; the theorems
below only use duplicate-free id lists.) -/
def getCredModel (vault : Option String) (credExists : Bool)
    (info : Option RecInfo)
    (parse : List Nat → Option Json)
    (fetch : String → Option (List Nat))
    (legacyDec : RecInfo → Except Unit (String × String))
    (decf : List Nat → List Nat → List Nat → Option (String × String))
    (domain : String) : Except Unit (Option (List Credential)) :=
  match vault with
  | none => .ok none
  | some _ =>
    if !credExists then .ok none
    else
      match info with
      | none => .ok none
      | some i =>
        match classify (parse i.data) with
        | some blobIds =>
          if blobIds.length = 0 then .ok none
          else
            let present := blobIds.filterMap fun id => (fetch id).map fun b => (id, b)
            if present.length = 0 then .ok none
            else
              let creds := present.filterMap fun p => processBlob decf domain p.2
              if creds.length = 0 then .ok none else .ok (some creds)
        | none =>
          match legacyDec i with
          | .error e => .error e
          | .ok (u, p) => .ok (some [⟨domain, u, p⟩])

/-! ## Claim C1 — envelope round-trip -/

/-- C1 (counterexample): with nonce, IV and ciphertext all empty the encoder
produces the 2-byte buffer `[0, 0]`, which the decoder rejects outright
(`blobData.length < 3`), so the round-trip law fails at this point even
though both declared lengths are in `[0, 255]`. -/
theorem c1_envelope_roundtrip_cex :
    decodeBlob (encodeBlob [] [] []) ≠ some ([], [], []) := by decide

/-- C1 (amended): for every session nonce `n`, IV `iv` and ciphertext `ct`
with `n.length` and `iv.length` in `[0, 255]`, and at least one byte in the
three fields together (the decoder rejects buffers shorter than 3 bytes),
decoding the envelope built by `saveCredential` recovers exactly
`(n, iv, ct)` via the decode logic of `getCredential`. -/
theorem c1_envelope_roundtrip (sn iv ct : List Nat)
    (hsn : sn.length ≤ 255) (hiv : iv.length ≤ 255)
    (hne : 1 ≤ sn.length + iv.length + ct.length) :
    decodeBlob (encodeBlob sn iv ct) = some (sn, iv, ct) :=
  decodeBlob_encodeBlob sn iv ct hsn hiv hne

/-- C1 witness: concrete round trip. -/
theorem c1_envelope_roundtrip_witness :
    decodeBlob (encodeBlob [1] [2, 3] [4]) = some ([1], [2, 3], [4]) :=
  c1_envelope_roundtrip [1] [2, 3] [4] (by decide) (by decide) (by decide)

/-! ## Claim C4 — malformed envelope handling -/

/-- C4: a buffer shorter than the 2-byte header plus its declared nonce and
IV lengths decodes to `none` (the `continue` guards of `getCredential`, i.e.
the blob is rejected as malformed), and a successful decode always accounts
for the whole buffer — the field lengths equal the declared lengths and sum
with the header to the exact buffer length, so no read past the end and no
partially-filled fields on error. -/
theorem c4_malformed_envelope (b : List Nat) :
    (b.length < 2 + declaredSnLen b + declaredIvLen b → decodeBlob b = none) ∧
    (∀ sn iv ct, decodeBlob b = some (sn, iv, ct) →
      sn.length = declaredSnLen b ∧ iv.length = declaredIvLen b ∧
        b.length = 2 + sn.length + iv.length + ct.length) := by
  constructor
  · intro h
    simp only [declaredSnLen, declaredIvLen] at h
    by_cases h3 : b.length < 3
    · rw [decodeBlob, if_pos h3]
    by_cases h4 : b.length < 1 + b.getD 0 0 + 1
    · rw [decodeBlob, if_neg h3, if_pos h4]
    rw [decodeBlob, if_neg h3, if_neg h4, if_pos (by omega)]
  · intro sn iv ct h
    exact decodeBlob_some_lengths b sn iv ct h

/-- C4 witness: the 1-byte buffer `[5]` declares a 5-byte nonce and decodes
to `none`. -/
theorem c4_malformed_envelope_witness : decodeBlob [5] = none :=
  (c4_malformed_envelope [5]).1 (by decide)

/-! ## Claim C10 — no 0–255 bound enforcement on encode -/

/-- C10: when the session nonce or the IV is longer than 255 bytes,
`saveCredential` stores the length byte reduced modulo 256 (`Uint8Array`
element assignment wraps) without any error, the declared length disagrees
with the actual field length, and decoding the produced blob can never
return the original `(n, iv, ct)`. -/
theorem c10_length_byte_wraps (sn iv ct : List Nat)
    (h : 255 < sn.length ∨ 255 < iv.length) :
    declaredSnLen (encodeBlob sn iv ct) = sn.length % 256 ∧
    (encodeBlob sn iv ct).getD (1 + sn.length) 0 = iv.length % 256 ∧
    (255 < sn.length → declaredSnLen (encodeBlob sn iv ct) ≠ sn.length) ∧
    (255 < iv.length → (encodeBlob sn iv ct).getD (1 + sn.length) 0 ≠ iv.length) ∧
    decodeBlob (encodeBlob sn iv ct) ≠ some (sn, iv, ct) := by
  refine ⟨encodeBlob_declaredSn sn iv ct, encodeBlob_getD_ivByte sn iv ct, ?_, ?_, ?_⟩
  · intro hgt
    rw [encodeBlob_declaredSn]
    omega
  · intro hgt
    rw [encodeBlob_getD_ivByte]
    omega
  · intro hdec
    obtain ⟨h1, h2, _⟩ := decodeBlob_some_lengths _ _ _ _ hdec
    rw [encodeBlob_declaredSn] at h1
    rw [declaredIvLen, encodeBlob_declaredSn, ← h1, encodeBlob_getD_ivByte] at h2
    omega

/-- C10 witness: a 256-byte nonce declares length `0` and fails to
round-trip. -/
theorem c10_length_byte_wraps_witness :
    decodeBlob (encodeBlob (List.replicate 256 7) [2] [3]) ≠
      some (List.replicate 256 7, [2], [3]) :=
  (c10_length_byte_wraps (List.replicate 256 7) [2] [3]
    (Or.inl (by rw [List.length_replicate]; omega))).2.2.2.2

/-! ## Claim C3 — format detection -/

theorem string_length_ne_zero (s : String) : s.length ≠ 0 ↔ s ≠ "" := by
  constructor
  · intro h he
    exact h (he ▸ rfl)
  · intro h hl
    exact h (String.ext ((List.length_eq_zero.mp hl).trans rfl))

/-- C3 (counterexample): the payload `"[]"` parses as the EMPTY JSON array;
`parsed.every(...)` is vacuously true on it, so the code classifies it as
current (`classify` returns `some []`) even though the spec's predicate
(non-empty array of non-empty strings) rejects it — and `getCredential` then
returns `null` from the current path (`blobIds.length === 0`) instead of
falling back to the legacy path (a legacy decode here would have produced
`Except.error ()`). -/
theorem c3_format_detection_cex :
    (classify (some (Json.jarr []))).isSome = true ∧
    specIsCurrent (some (Json.jarr [])) = false ∧
    getCredModel (some "v") true (some ⟨[], [], []⟩)
        (fun _ => some (Json.jarr [])) (fun _ => none)
        (fun _ => Except.error ()) (fun _ _ _ => none) "d" = Except.ok none := by
  refine ⟨rfl, rfl, rfl⟩

/-- C3 (amended): a stored record is treated as current exactly when its
payload parses as a JSON array ALL of whose elements are non-empty strings
(the empty array included, vacuously); any parse failure — and any failed
array/element check — routes the record to the legacy decode path without
raising an error to the caller at classification time. -/
theorem c3_format_detection (pj : Option Json) (i : RecInfo) (v domain : String)
    (fetch : String → Option (List Nat))
    (legacyDec : RecInfo → Except Unit (String × String))
    (decf : List Nat → List Nat → List Nat → Option (String × String)) :
    ((classify pj).isSome = true ↔
      ∃ xs, pj = some (Json.jarr xs) ∧ ∀ x ∈ xs, ∃ s, x = Json.jstr s ∧ s ≠ "") ∧
    (classify pj = none →
      getCredModel (some v) true (some i) (fun _ => pj) fetch legacyDec decf domain =
        match legacyDec i with
        | .error e => .error e
        | .ok (u, p) => .ok (some [⟨domain, u, p⟩])) := by
  constructor
  · constructor
    · intro h
      match pj with
      | none => cases h
      | some (Json.jnull) => cases h
      | some (Json.jbool b) => cases h
      | some (Json.jnum n) => cases h
      | some (Json.jstr s) => cases h
      | some (Json.jobj fs) => cases h
      | some (Json.jarr xs) =>
        refine ⟨xs, rfl, ?_⟩
        simp only [classify] at h
        by_cases hall : xs.all jsonStrOk
        · intro x hx
          have hok := (List.all_eq_true.mp hall) x hx
          cases x with
          | jstr s =>
            refine ⟨s, rfl, ?_⟩
            simp only [jsonStrOk] at hok
            exact (string_length_ne_zero s).mp (by simpa using hok)
          | jnull => simp [jsonStrOk] at hok
          | jbool b => simp [jsonStrOk] at hok
          | jnum n => simp [jsonStrOk] at hok
          | jarr ys => simp [jsonStrOk] at hok
          | jobj fs => simp [jsonStrOk] at hok
        · rw [if_neg hall] at h; cases h
    · rintro ⟨xs, rfl, hxs⟩
      simp only [classify]
      have hall : xs.all jsonStrOk = true := by
        rw [List.all_eq_true]
        intro x hx
        obtain ⟨s, rfl, hs⟩ := hxs x hx
        simp only [jsonStrOk]
        simpa using (string_length_ne_zero s).mpr hs
      rw [if_pos hall]
      rfl
  · intro h
    simp only [getCredModel, Bool.not_true, Bool.false_eq_true, if_false, h]

/-- C3 witness: a record whose payload is the JSON string `"x"` (not an
array) is routed to the legacy decode, whose result is surfaced. -/
theorem c3_format_detection_witness :
    getCredModel (some "v") true (some ⟨[], [], []⟩)
        (fun _ => some (Json.jstr "x")) (fun _ => none)
        (fun _ => Except.ok ("u", "p")) (fun _ _ _ => none) "d" =
      Except.ok (some [⟨"d", "u", "p"⟩]) :=
  ((c3_format_detection (some (Json.jstr "x")) ⟨[], [], []⟩ "v" "d"
      (fun _ => none) (fun _ => Except.ok ("u", "p")) (fun _ _ _ => none)).2
    rfl).trans rfl

/-! ## Claim C5 — partial-failure recovery on read -/

/-- C5 (counterexample): a record that IS present (vault found, credential
exists, info fetched, payload a one-element blob-id array, blob fetched)
but whose single blob fails to decrypt makes `getCredential` return `null`
(`Except.ok none`) — exactly the value returned when the credential does
not exist at all, so the two cases are NOT distinguished in the result, and
a successful ledger lookup is not reported as a success. -/
theorem c5_partial_failure_cex :
    getCredModel (some "v") true (some ⟨[], [], []⟩)
        (fun _ => some (Json.jarr [Json.jstr "b"]))
        (fun _ => some (encodeBlob [1] [2] [3]))
        (fun _ => Except.error ()) (fun _ _ _ => none) "d" = Except.ok none ∧
    getCredModel (some "v") false (some ⟨[], [], []⟩)
        (fun _ => some (Json.jarr [Json.jstr "b"]))
        (fun _ => some (encodeBlob [1] [2] [3]))
        (fun _ => Except.error ()) (fun _ _ _ => none) "d" = Except.ok none :=
  ⟨rfl, rfl⟩

/-- C5 (amended): on the current-format path every blob that fails to fetch,
envelope-decode, decrypt or validate is skipped, and `getCredential` returns
exactly the successfully decoded subset — but only when that subset is
non-empty; when zero entries decode (or zero blobs fetch, or the id array is
empty) it returns `null`, the same value as the no-record case (the
distinction is made only in logging). -/
theorem c5_partial_failure (v domain : String) (i : RecInfo)
    (parse : List Nat → Option Json) (fetch : String → Option (List Nat))
    (legacyDec : RecInfo → Except Unit (String × String))
    (decf : List Nat → List Nat → List Nat → Option (String × String))
    (blobIds : List String)
    (hc : classify (parse i.data) = some blobIds) :
    (getCredModel (some v) true (some i) parse fetch legacyDec decf domain =
      .ok (let creds := (blobIds.filterMap fun id => (fetch id).map fun b => (id, b)).filterMap
              fun p => processBlob decf domain p.2
           if creds.length = 0 then none else some creds)) ∧
    getCredModel (some v) false (some i) parse fetch legacyDec decf domain = .ok none := by
  constructor
  · simp only [getCredModel, Bool.not_true, Bool.false_eq_true, if_false, hc]
    by_cases h1 : blobIds.length = 0
    · have hb : blobIds = [] := List.length_eq_zero.mp h1
      subst hb
      rfl
    rw [if_neg h1]
    by_cases h2 : (blobIds.filterMap fun id => (fetch id).map fun b => (id, b)).length = 0
    · rw [if_pos h2]
      have hp : (blobIds.filterMap fun id => (fetch id).map fun b => (id, b)) = [] :=
        List.length_eq_zero.mp h2
      simp [hp]
    rw [if_neg h2]
    by_cases h3 : ((blobIds.filterMap fun id => (fetch id).map fun b => (id, b)).filterMap
        fun p => processBlob decf domain p.2).length = 0
    · rw [if_pos h3, if_pos h3]
    · rw [if_neg h3, if_neg h3]
  · rfl

/-- C5 witness: two blobs, one decodable and one not — the decodable one is
returned, the other skipped. -/
theorem c5_partial_failure_witness :
    getCredModel (some "v") true (some ⟨[], [], []⟩)
        (fun _ => some (Json.jarr [Json.jstr "a", Json.jstr "bb"]))
        (fun id => if id.length = 1 then some (encodeBlob [1] [2] [3]) else some [0])
        (fun _ => Except.error ())
        (fun sn _ _ => if sn = [1] then some ("u1", "p1") else none) "d" =
      Except.ok (some [⟨"d", "u1", "p1"⟩]) :=
  ((c5_partial_failure "v" "d" ⟨[], [], []⟩
      (fun _ => some (Json.jarr [Json.jstr "a", Json.jstr "bb"]))
      (fun id => if id.length = 1 then some (encodeBlob [1] [2] [3]) else some [0])
      (fun _ => Except.error ())
      (fun sn _ _ => if sn = [1] then some ("u1", "p1") else none)
      ["a", "bb"] rfl).1).trans rfl

/-! ## Claim C2 — additive update -/

/-- C2: when the domain already has a record whose data parses as a JSON
array (the blob-identifier array), `saveCredential` writes back exactly that
array with the new blob id appended — no existing identifier is dropped or
replaced; and consequently, after saving twice for the same domain (first
save creates `[id1]`, second save fetches it and appends `id2`), a `get`
that fetches both blobs and decrypts them successfully returns BOTH
accounts. -/
theorem c2_additive_update :
    (∀ (xs : List Json) (newId : String),
      newPayload true (some (some (some (Json.jarr xs)))) newId
        = xs ++ [Json.jstr newId]) ∧
    (∀ (v domain id1 id2 u1 p1 u2 p2 : String) (i : RecInfo)
      (sn1 iv1 ct1 sn2 iv2 ct2 : List Nat)
      (parse : List Nat → Option Json) (fetch : String → Option (List Nat))
      (legacyDec : RecInfo → Except Unit (String × String))
      (decf : List Nat → List Nat → List Nat → Option (String × String)),
      id1.length ≠ 0 → id2.length ≠ 0 →
      parse i.data = some (Json.jarr
        (newPayload true (some (some (some (Json.jarr (newPayload false none id1))))) id2)) →
      fetch id1 = some (encodeBlob sn1 iv1 ct1) →
      fetch id2 = some (encodeBlob sn2 iv2 ct2) →
      sn1.length ≤ 255 → iv1.length ≤ 255 → 1 ≤ sn1.length + iv1.length + ct1.length →
      sn2.length ≤ 255 → iv2.length ≤ 255 → 1 ≤ sn2.length + iv2.length + ct2.length →
      decf sn1 iv1 ct1 = some (u1, p1) → decf sn2 iv2 ct2 = some (u2, p2) →
      getCredModel (some v) true (some i) parse fetch legacyDec decf domain =
        .ok (some [⟨domain, u1, p1⟩, ⟨domain, u2, p2⟩])) := by
  constructor
  · intro xs newId
    rfl
  · intro v domain id1 id2 u1 p1 u2 p2 i sn1 iv1 ct1 sn2 iv2 ct2 parse fetch
      legacyDec decf h1 h2 hparse hf1 hf2 hsn1 hiv1 hc1 hsn2 hiv2 hc2 hd1 hd2
    have hpayload : newPayload true
        (some (some (some (Json.jarr (newPayload false none id1))))) id2
        = [Json.jstr id1, Json.jstr id2] := rfl
    rw [hpayload] at hparse
    have hclass : classify (parse i.data) = some [id1, id2] := by
      rw [hparse]
      simp only [classify, List.all_cons, List.all_nil, jsonStrOk, Bool.and_true]
      rw [if_pos (by simp [h1, h2])]
      rfl
    have hdec1 : decodeBlob (encodeBlob sn1 iv1 ct1) = some (sn1, iv1, ct1) :=
      decodeBlob_encodeBlob sn1 iv1 ct1 hsn1 hiv1 hc1
    have hdec2 : decodeBlob (encodeBlob sn2 iv2 ct2) = some (sn2, iv2, ct2) :=
      decodeBlob_encodeBlob sn2 iv2 ct2 hsn2 hiv2 hc2
    have hpresent : ([id1, id2].filterMap fun id => (fetch id).map fun b => (id, b))
        = [(id1, encodeBlob sn1 iv1 ct1), (id2, encodeBlob sn2 iv2 ct2)] := by
      simp [hf1, hf2]
    have hcred1 : processBlob decf domain (encodeBlob sn1 iv1 ct1)
        = some ⟨domain, u1, p1⟩ := by
      simp only [processBlob, hdec1, hd1]
    have hcred2 : processBlob decf domain (encodeBlob sn2 iv2 ct2)
        = some ⟨domain, u2, p2⟩ := by
      simp only [processBlob, hdec2, hd2]
    simp only [getCredModel, Bool.not_true, Bool.false_eq_true, if_false, hclass]
    rw [if_neg (by simp)]
    rw [hpresent]
    rw [if_neg (by simp)]
    simp [hcred1, hcred2]

/-- C2 witness: two concrete saves for the same domain, then a get returning
both stored accounts. -/
theorem c2_additive_update_witness :
    getCredModel (some "v") true (some ⟨[], [], []⟩)
        (fun _ => some (Json.jarr
          (newPayload true (some (some (some (Json.jarr (newPayload false none "a"))))) "bb")))
        (fun id => if id.length = 1 then some (encodeBlob [1] [2] [3])
                   else some (encodeBlob [4] [5] [6]))
        (fun _ => Except.error ())
        (fun sn _ _ => if sn = [1] then some ("u1", "p1") else some ("u2", "p2")) "d" =
      Except.ok (some [⟨"d", "u1", "p1"⟩, ⟨"d", "u2", "p2"⟩]) :=
  (c2_additive_update).2 "v" "d" "a" "bb" "u1" "p1" "u2" "p2" ⟨[], [], []⟩
    [1] [2] [3] [4] [5] [6]
    (fun _ => some (Json.jarr
      (newPayload true (some (some (some (Json.jarr (newPayload false none "a"))))) "bb")))
    (fun id => if id.length = 1 then some (encodeBlob [1] [2] [3])
               else some (encodeBlob [4] [5] [6]))
    (fun _ => Except.error ())
    (fun sn _ _ => if sn = [1] then some ("u1", "p1") else some ("u2", "p2"))
    (by decide) (by decide) rfl rfl rfl
    (by decide) (by decide) (by decide) (by decide) (by decide) (by decide)
    rfl rfl

/-! ## Master-key lifecycle manager

`SecureMasterKeyManager` (master-key-manager.ts).  Promises are identified
by a ghost counter `derivations`, which also counts how many underlying
`deriveMasterKey` calls have been started.  Timestamps are milliseconds.
The asynchronous `.then` continuation of a started derivation, and the zero
delay `setTimeout` in `recordAccess`, run after the synchronous call body
returns; `getMasterKeyM` models the synchronous body. -/

structure MKState where
  masterKey : Option (List Nat)
  isLoading : Bool
  promise : Option Nat
  lastAddress : Option String
  createdAt : Option Nat
  accessCount : Nat
  lastAccessTime : Option Nat
  clearanceTimer : Bool
  derivations : Nat
deriving DecidableEq, Repr

def MAX_KEY_AGE : Nat := 8 * 60 * 60 * 1000
def IDLE_TIMEOUT : Nat := 30 * 60 * 1000
def MAX_ACCESS_COUNT : Nat := 1000

/-- `shouldClearKey`: no key or no creation time — `false`; otherwise clear
when too old, idle too long (a missing `lastAccessTime` counts as
`Infinity`) or accessed too often. -/
def shouldClearKey (s : MKState) (now : Nat) : Bool :=
  match s.masterKey, s.createdAt with
  | some _, some created =>
    if now - created > MAX_KEY_AGE then true
    else
      match s.lastAccessTime with
      | none => true
      | some t =>
        if now - t > IDLE_TIMEOUT then true
        else s.accessCount > MAX_ACCESS_COUNT
  | _, _ => false

/-- `secureClearKey`: `fill(0)` the key buffer (the released buffer's final
content is returned alongside the new state) and drop the reference, then
cancel the clearance timer. -/
def secureClearKey (s : MKState) : MKState × Option (List Nat) :=
  match s.masterKey with
  | some k =>
    ({ s with masterKey := none, clearanceTimer := false },
     some (k.map fun _ => 0))
  | none => ({ s with clearanceTimer := false }, none)

/-- `clearCache`: `secureClearKey` then reset every state field. -/
def clearCache (s : MKState) : MKState × Option (List Nat) :=
  let r := secureClearKey s
  ({ r.1 with
      isLoading := false
      promise := none
      lastAddress := none
      createdAt := none
      accessCount := 0
      lastAccessTime := none }, r.2)

/-- `recordAccess`: bump the access count and the last-access time.  (The
`setTimeout(..., 0)` re-check runs on the next tick, outside the
synchronous body.) -/
def recordAccess (s : MKState) (now : Nat) : MKState :=
  { s with accessCount := s.accessCount + 1, lastAccessTime := some now }

/-- Outcome of one synchronous `getMasterKey` call. -/
inductive MKResult where
  | cached (key : List Nat)
  | inflight (pid : Nat)
  | started (pid : Nat)
deriving DecidableEq, Repr

/-- The synchronous body of `SecureMasterKeyManager.getMasterKey`
(lines 136–196): lazy expiry check, cached-key hit, in-flight-promise
dedup, clear on address change, then start a new derivation (the fresh
promise is the ghost id `derivations`, and the counter records that one
more underlying `deriveMasterKey` call was started). -/
def getMasterKeyM (s : MKState) (addr : String) (now : Nat) : MKState × MKResult :=
  let s0 := if shouldClearKey s now then (clearCache s).1 else s
  match s0.masterKey with
  | some k =>
    if s0.lastAddress = some addr then (recordAccess s0 now, .cached k)
    else startDerivation s0 addr
  | none =>
    if s0.isLoading ∧ s0.lastAddress = some addr ∧ s0.promise.isSome then
      (s0, .inflight (s0.promise.getD 0))
    else startDerivation s0 addr
where
  /-- Clear on address change, mark loading, create the promise. -/
  startDerivation (s0 : MKState) (addr : String) : MKState × MKResult :=
    let s1 := if s0.lastAddress ≠ some addr then (clearCache s0).1 else s0
    let pid := s1.derivations
    ({ s1 with
        isLoading := true
        lastAddress := some addr
        promise := some pid
        derivations := s1.derivations + 1 },
     .started pid)

/-! ### Manager lemmas -/

theorem secureClearKey_fields (s : MKState) :
    (secureClearKey s).1.masterKey = none ∧
    (secureClearKey s).1.clearanceTimer = false ∧
    (secureClearKey s).1.derivations = s.derivations ∧
    (∀ k, s.masterKey = some k → (secureClearKey s).2 = some (List.replicate k.length 0)) ∧
    (s.masterKey = none → (secureClearKey s).2 = none) := by
  cases hm : s.masterKey with
  | none => simp [secureClearKey, hm]
  | some k =>
    refine ⟨?_, ?_, ?_, ?_, ?_⟩ <;>
      simp [secureClearKey, hm, List.map_const']

theorem clearCache_fields (s : MKState) :
    (clearCache s).1.masterKey = none ∧
    (clearCache s).1.isLoading = false ∧
    (clearCache s).1.promise = none ∧
    (clearCache s).1.lastAddress = none ∧
    (clearCache s).1.createdAt = none ∧
    (clearCache s).1.accessCount = 0 ∧
    (clearCache s).1.lastAccessTime = none ∧
    (clearCache s).1.clearanceTimer = false ∧
    (clearCache s).1.derivations = s.derivations ∧
    (∀ k, s.masterKey = some k → (clearCache s).2 = some (List.replicate k.length 0)) ∧
    (s.masterKey = none → (clearCache s).2 = none) := by
  obtain ⟨h1, h2, h3, h4, h5⟩ := secureClearKey_fields s
  exact ⟨h1, rfl, rfl, rfl, rfl, rfl, rfl, h2, h3, h4, h5⟩

theorem shouldClearKey_of_none (s : MKState) (now : Nat) (hm : s.masterKey = none) :
    shouldClearKey s now = false := by
  cases hc : s.createdAt <;> simp [shouldClearKey, hm, hc]

theorem startDerivation_spec (s0 : MKState) (addr : String)
    (hm : s0.masterKey = none ∨ s0.lastAddress ≠ some addr) :
    (getMasterKeyM.startDerivation s0 addr).2 = .started s0.derivations ∧
    (getMasterKeyM.startDerivation s0 addr).1.masterKey = none ∧
    (getMasterKeyM.startDerivation s0 addr).1.isLoading = true ∧
    (getMasterKeyM.startDerivation s0 addr).1.lastAddress = some addr ∧
    (getMasterKeyM.startDerivation s0 addr).1.promise = some s0.derivations ∧
    (getMasterKeyM.startDerivation s0 addr).1.derivations = s0.derivations + 1 := by
  by_cases ha : s0.lastAddress = some addr
  · have hmk : s0.masterKey = none := by
      rcases hm with h | h
      · exact h
      · exact absurd ha h
    refine ⟨?_, ?_, ?_, ?_, ?_, ?_⟩ <;>
      simp [getMasterKeyM.startDerivation, ha, hmk]
  · obtain ⟨c1, _, _, _, _, _, _, _, c9, _, _⟩ := clearCache_fields s0
    refine ⟨?_, ?_, ?_, ?_, ?_, ?_⟩ <;>
      simp [getMasterKeyM.startDerivation, ha, c1, c9]

theorem getMasterKeyM_def (s : MKState) (addr : String) (now : Nat) :
    getMasterKeyM s addr now =
      (let s0 := if shouldClearKey s now then (clearCache s).1 else s
       match s0.masterKey with
       | some k =>
         if s0.lastAddress = some addr then (recordAccess s0 now, MKResult.cached k)
         else getMasterKeyM.startDerivation s0 addr
       | none =>
         if s0.isLoading ∧ s0.lastAddress = some addr ∧ s0.promise.isSome then
           (s0, MKResult.inflight (s0.promise.getD 0))
         else getMasterKeyM.startDerivation s0 addr) := rfl

/-- After a call that starts a derivation, the manager is loading for that
address, holds the fresh in-flight promise, holds no key, and exactly one
more underlying derivation has been started. -/
theorem getMasterKeyM_started_state (s : MKState) (addr : String) (now : Nat) (pid : Nat)
    (h : (getMasterKeyM s addr now).2 = .started pid) :
    (getMasterKeyM s addr now).1.masterKey = none ∧
    (getMasterKeyM s addr now).1.isLoading = true ∧
    (getMasterKeyM s addr now).1.lastAddress = some addr ∧
    (getMasterKeyM s addr now).1.promise = some pid ∧
    (getMasterKeyM s addr now).1.derivations = s.derivations + 1 := by
  rw [getMasterKeyM_def] at h ⊢
  simp only at h ⊢
  set s0 := if shouldClearKey s now then (clearCache s).1 else s with hs0
  have hder : s0.derivations = s.derivations := by
    rw [hs0]
    by_cases hc : shouldClearKey s now
    · simp [hc, (clearCache_fields s).2.2.2.2.2.2.2.2.1]
    · simp [hc]
  rcases hmk : s0.masterKey with _ | k
  · simp only [hmk] at h ⊢
    by_cases hcond : s0.isLoading ∧ s0.lastAddress = some addr ∧ s0.promise.isSome
    · rw [if_pos hcond] at h
      simp at h
    · rw [if_neg hcond] at h ⊢
      obtain ⟨d1, d2, d3, d4, d5, d6⟩ := startDerivation_spec s0 addr (Or.inl hmk)
      rw [d1] at h
      have hpid := MKResult.started.inj h
      exact ⟨d2, d3, d4, by rw [d5, hpid], by rw [d6, hder]⟩
  · simp only [hmk] at h ⊢
    by_cases ha : s0.lastAddress = some addr
    · rw [if_pos ha] at h
      simp at h
    · rw [if_neg ha] at h ⊢
      obtain ⟨d1, d2, d3, d4, d5, d6⟩ := startDerivation_spec s0 addr (Or.inr ha)
      rw [d1] at h
      have hpid := MKResult.started.inj h
      exact ⟨d2, d3, d4, by rw [d5, hpid], by rw [d6, hder]⟩

/-! ## Claim C6 — master-key derivation deduplication -/

/-- C6: if a `getMasterKey` call for an address starts a derivation, then a
second call for the same address made while that derivation is in flight
returns the SAME in-flight promise, leaves the manager state untouched, and
starts no second derivation — the number of underlying `deriveMasterKey`
calls after both invocations is exactly one more than before the first. -/
theorem c6_derivation_dedup (s : MKState) (addr : String) (now : Nat) (pid : Nat)
    (h : (getMasterKeyM s addr now).2 = .started pid) :
    (getMasterKeyM (getMasterKeyM s addr now).1 addr now).2 = .inflight pid ∧
    (getMasterKeyM (getMasterKeyM s addr now).1 addr now).1 = (getMasterKeyM s addr now).1 ∧
    (getMasterKeyM s addr now).1.derivations = s.derivations + 1 := by
  obtain ⟨m1, m2, m3, m4, m5⟩ := getMasterKeyM_started_state s addr now pid h
  set s1 := (getMasterKeyM s addr now).1 with hs1
  have hclear : shouldClearKey s1 now = false := shouldClearKey_of_none s1 now m1
  have hcond : s1.isLoading ∧ s1.lastAddress = some addr ∧ s1.promise.isSome :=
    ⟨by rw [m2], m3, by rw [m4]; rfl⟩
  refine ⟨?_, ?_, m5⟩
  · rw [getMasterKeyM_def]
    simp only [hclear, Bool.false_eq_true, if_false, m1]
    rw [if_pos hcond]
    simp [m4]
  · rw [getMasterKeyM_def]
    simp only [hclear, Bool.false_eq_true, if_false, m1]
    rw [if_pos hcond]

/-- C6 witness: from the empty manager state, the first call starts
derivation 0 and the second call joins it. -/
theorem c6_derivation_dedup_witness :
    (getMasterKeyM
        (getMasterKeyM ⟨none, false, none, none, none, 0, none, false, 0⟩ "a" 0).1
        "a" 0).2 = MKResult.inflight 0 :=
  (c6_derivation_dedup ⟨none, false, none, none, none, 0, none, false, 0⟩ "a" 0 0
    (by decide)).1

/-! ## Claim C7 — secure key clearing -/

/-- C7: `clearCache` leaves the manager with no key, no in-flight promise,
not loading, no scheduled clearance timer and fully reset metadata, and
when a key was cached its backing buffer is released only after every byte
has been overwritten with zero (`fill(0)`). -/
theorem c7_clear_cache (s : MKState) :
    (clearCache s).1.masterKey = none ∧
    (clearCache s).1.promise = none ∧
    (clearCache s).1.isLoading = false ∧
    (clearCache s).1.clearanceTimer = false ∧
    (clearCache s).1.lastAddress = none ∧
    (clearCache s).1.createdAt = none ∧
    (clearCache s).1.accessCount = 0 ∧
    (clearCache s).1.lastAccessTime = none ∧
    (∀ k, s.masterKey = some k → (clearCache s).2 = some (List.replicate k.length 0)) := by
  obtain ⟨h1, h2, h3, h4, h5, h6, h7, h8, _, h10, _⟩ := clearCache_fields s
  exact ⟨h1, h3, h2, h8, h4, h5, h6, h7, h10⟩

/-- C7 witness: clearing a manager that caches the 3-byte key `[1, 2, 3]`
releases the buffer zeroed. -/
theorem c7_clear_cache_witness :
    (clearCache ⟨some [1, 2, 3], true, some 5, some "a", some 9, 7, some 9, true, 4⟩).2
      = some (List.replicate 3 0) :=
  (c7_clear_cache ⟨some [1, 2, 3], true, some 5, some "a", some 9, 7, some 9, true, 4⟩
    ).2.2.2.2.2.2.2.2 [1, 2, 3] rfl

/-! ## Secure persistence manager (`SecurePersistenceManager`)

`getCredentials` (persistence-manager.ts lines 377–426) and
`getSessionIfValid` (lines 230–297).  The stored slot holds a JSON string;
`parseStored` models `JSON.parse` of it (`none` = threw), `decryptM` models
salt decoding, PBKDF2 key re-derivation and `decrypt` (`none` = any of them
threw — in particular AES-GCM authentication failure on a tampered
ciphertext), `parseCached`/`parseSess` model `JSON.parse` of the decrypted
plaintext, and `integrityOf` models `calculateIntegrity` over the record
with its `integrity` field blanked.  Each model returns the call result
together with the slot content after the call (`none` = the stored record
was removed). -/

structure StoredData where
  data : String
  salt : List Nat
  iv : String
  iterations : Nat
  timestamp : Nat
  expiresAt : Nat

structure CachedCred where
  domain : String
  username : String
  password : Option String
deriving DecidableEq, Repr

structure PersistedCredentials where
  credentials : List CachedCred
  timestamp : Nat
  expiresAt : Nat
  sessionId : String
  integrity : String

structure PersistedSession where
  address : String
  idToken : String
  provider : String
  createdAt : Nat
  masterKey : String
  timestamp : Nat
  expiresAt : Nat
  sessionId : String
  integrity : String

/-- `SecurePersistenceManager.getCredentials`: parse the stored slot, check
expiry, re-derive the key and decrypt, parse, verify the integrity digest;
every failure clears the slot (`clearCredentials`) and returns `null`. -/
def getCredentialsM (slot : Option String)
    (parseStored : String → Option StoredData) (now : Nat)
    (decryptM : StoredData → Option String)
    (parseCached : String → Option PersistedCredentials)
    (integrityOf : PersistedCredentials → String) :
    Option (List CachedCred) × Option String :=
  match slot with
  | none => (none, none)
  | some raw =>
    match parseStored raw with
    | none => (none, none)
    | some sd =>
      if sd.expiresAt < now then (none, none)
      else
        match decryptM sd with
        | none => (none, none)
        | some plain =>
          match parseCached plain with
          | none => (none, none)
          | some cached =>
            if cached.integrity ≠ integrityOf cached then (none, none)
            else (some cached.credentials, some raw)

/-- `SecurePersistenceManager.getSessionIfValid`: input validation
(`validInputs = false` = a validator threw), then parse, expiry check,
decrypt, parse, session/user match, integrity digest; every failure clears
the stored session (`clearSession`) and returns `null`. -/
def getSessionM (validInputs : Bool) (slot : Option String)
    (parseStored : String → Option StoredData) (now : Nat)
    (decryptM : StoredData → Option String)
    (parseSess : String → Option PersistedSession)
    (integrityOf : PersistedSession → String)
    (curAddr curTok : String) :
    Option PersistedSession × Option String :=
  if !validInputs then (none, none)
  else
    match slot with
    | none => (none, none)
    | some raw =>
      match parseStored raw with
      | none => (none, none)
      | some sd =>
        if sd.expiresAt < now then (none, none)
        else
          match decryptM sd with
          | none => (none, none)
          | some plain =>
            match parseSess plain with
            | none => (none, none)
            | some sess =>
              if sess.address ≠ curAddr ∨ sess.idToken ≠ curTok then (none, none)
              else if sess.integrity ≠ integrityOf sess then (none, none)
              else (some sess, some raw)

/-- Every run of `getCredentials` either fails closed — `null` result and
slot deleted — or succeeds with the verified record and the slot intact. -/
theorem getCredentialsM_cases (slot : Option String)
    (p : String → Option StoredData) (now : Nat)
    (d : StoredData → Option String)
    (pc : String → Option PersistedCredentials)
    (io : PersistedCredentials → String) :
    getCredentialsM slot p now d pc io = (none, none) ∨
    ∃ raw sd plain cached, slot = some raw ∧ p raw = some sd ∧
      ¬(sd.expiresAt < now) ∧ d sd = some plain ∧ pc plain = some cached ∧
      cached.integrity = io cached ∧
      getCredentialsM slot p now d pc io = (some cached.credentials, some raw) := by
  rcases slot with _ | raw
  · left; rfl
  rcases hps : p raw with _ | sd
  · left; simp [getCredentialsM, hps]
  by_cases hexp : sd.expiresAt < now
  · left; simp [getCredentialsM, hps, hexp]
  rcases hd : d sd with _ | plain
  · left; simp [getCredentialsM, hps, hexp, hd]
  rcases hpc : pc plain with _ | cached
  · left; simp [getCredentialsM, hps, hexp, hd, hpc]
  by_cases hint : cached.integrity = io cached
  · right
    exact ⟨raw, sd, plain, cached, rfl, hps, hexp, hd, hpc, hint,
      by simp [getCredentialsM, hps, hexp, hd, hpc, hint]⟩
  · left; simp [getCredentialsM, hps, hexp, hd, hpc, hint]

/-- Same decision tree for `getSessionIfValid`. -/
theorem getSessionM_cases (v : Bool) (slot : Option String)
    (p : String → Option StoredData) (now : Nat)
    (d : StoredData → Option String)
    (ps : String → Option PersistedSession)
    (io : PersistedSession → String) (a t : String) :
    getSessionM v slot p now d ps io a t = (none, none) ∨
    ∃ raw sd plain sess, v = true ∧ slot = some raw ∧ p raw = some sd ∧
      ¬(sd.expiresAt < now) ∧ d sd = some plain ∧ ps plain = some sess ∧
      sess.address = a ∧ sess.idToken = t ∧ sess.integrity = io sess ∧
      getSessionM v slot p now d ps io a t = (some sess, some raw) := by
  rcases v with _ | _
  · left; rfl
  rcases slot with _ | raw
  · left; rfl
  rcases hps : p raw with _ | sd
  · left; simp [getSessionM, hps]
  by_cases hexp : sd.expiresAt < now
  · left; simp [getSessionM, hps, hexp]
  rcases hd : d sd with _ | plain
  · left; simp [getSessionM, hps, hexp, hd]
  rcases hsess : ps plain with _ | sess
  · left; simp [getSessionM, hps, hexp, hd, hsess]
  by_cases hmatch : sess.address ≠ a ∨ sess.idToken ≠ t
  · left; simp [getSessionM, hps, hexp, hd, hsess, hmatch]
  by_cases hint : sess.integrity = io sess
  · right
    push_neg at hmatch
    exact ⟨raw, sd, plain, sess, rfl, rfl, hps, hexp, hd, hsess, hmatch.1, hmatch.2, hint,
      by simp [getSessionM, hps, hexp, hd, hsess, hmatch.1, hmatch.2, hint]⟩
  · left; simp [getSessionM, hps, hexp, hd, hsess, hint]

/-! ## Claim C8 — Secure Cache fails closed -/

/-- C8: for every stored cache record, expiry, decryption failure (which is
what one tampered ciphertext byte produces under authenticated decryption)
or integrity-digest mismatch during load deletes the stored record and
returns `null`; more generally, whenever `load` does not return data — for
the credentials cache and for the session cache alike — the stored slot is
left empty, so no failure ever coexists with surviving partially-trusted
data. -/
theorem c8_cache_fails_closed
    (raw : String) (p : String → Option StoredData) (now : Nat)
    (d : StoredData → Option String)
    (pc : String → Option PersistedCredentials)
    (io : PersistedCredentials → String)
    (sd : StoredData) (hps : p raw = some sd) :
    (sd.expiresAt < now → getCredentialsM (some raw) p now d pc io = (none, none)) ∧
    (d sd = none → getCredentialsM (some raw) p now d pc io = (none, none)) ∧
    (∀ plain cached, d sd = some plain → pc plain = some cached →
      cached.integrity ≠ io cached →
      getCredentialsM (some raw) p now d pc io = (none, none)) ∧
    (∀ slot : Option String,
      (getCredentialsM slot p now d pc io).1 = none →
      (getCredentialsM slot p now d pc io).2 = none) ∧
    (∀ (v : Bool) (slot : Option String) (ps : String → Option PersistedSession)
        (ioS : PersistedSession → String) (a t : String),
      (getSessionM v slot p now d ps ioS a t).1 = none →
      (getSessionM v slot p now d ps ioS a t).2 = none) ∧
    (∀ (ps : String → Option PersistedSession) (ioS : PersistedSession → String)
        (a t : String),
      d sd = none → getSessionM true (some raw) p now d ps ioS a t = (none, none)) := by
  refine ⟨?_, ?_, ?_, ?_, ?_, ?_⟩
  · intro hexp
    simp [getCredentialsM, hps, hexp]
  · intro hd
    by_cases hexp : sd.expiresAt < now <;>
      simp [getCredentialsM, hps, hexp, hd]
  · intro plain cached hd hpc hint
    by_cases hexp : sd.expiresAt < now <;>
      simp [getCredentialsM, hps, hexp, hd, hpc, hint]
  · intro slot h1
    rcases getCredentialsM_cases slot p now d pc io with hc | ⟨_, _, _, _, _, _, _, _, _, _, heq⟩
    · rw [hc]
    · rw [heq] at h1 ⊢
      cases h1
  · intro v slot ps ioS a t h1
    rcases getSessionM_cases v slot p now d ps ioS a t with hc | ⟨_, _, _, _, _, _, _, _, _, _, _, _, _, heq⟩
    · rw [hc]
    · rw [heq] at h1 ⊢
      cases h1
  · intro ps ioS a t hd
    by_cases hexp : sd.expiresAt < now <;>
      simp [getSessionM, hps, hexp, hd]

/-- C8 witness: an expired credentials record is wiped and `null` returned. -/
theorem c8_cache_fails_closed_witness :
    getCredentialsM (some "r") (fun _ => some ⟨"c", [1], "i", 600000, 0, 5⟩) 10
      (fun _ => none) (fun _ => none) (fun _ => "") = (none, none) :=
  (c8_cache_fails_closed "r" (fun _ => some ⟨"c", [1], "i", 600000, 0, 5⟩) 10
    (fun _ => none) (fun _ => none) (fun _ => "") ⟨"c", [1], "i", 600000, 0, 5⟩ rfl).1
    (by decide)

/-! ## Pending-write queue

The extension's heartbeat server (heartbeat.ts) exposes the queue through
`POST /api/save-credential` (`queueSave`), `GET /api/pending-saves`
(`getPendingSaves`) and `POST /api/pending-saves/:id/complete`
(`removeFromQueue`); the Dashboard's `processQueue` (Dashboard.tsx) is the
privileged executor that polls, attempts `saveCredential` per entry and
acknowledges only entries whose save succeeded. -/

structure PendingSave where
  id : Nat
  domain : String
  username : String
  password : String
deriving DecidableEq, Repr

/-- Modelled from the spec: the save-queue module (`queueSave`,
`getPendingSaves`, `removeFromQueue` imported by heartbeat.ts from
'./save-queue') is not among the provided sources; modelled from §4.7 —
a FIFO mailbox keyed by a generated identifier: `enqueue(request) -> id`
appends an entry under a fresh id. -/
def queueSaveM (q : List PendingSave) (nextId : Nat)
    (domain username password : String) : List PendingSave × Nat :=
  (q ++ [⟨nextId, domain, username, password⟩], nextId + 1)

/-- Modelled from the spec: `getPendingSaves` returns the entries not yet
completed (`GET /api/pending-saves` responds with the whole pending list). -/
def getPendingSavesM (q : List PendingSave) : List PendingSave := q

/-- Modelled from the spec: `removeFromQueue(id)` removes the entry with
that id and reports whether one was present (the `/complete` endpoint
answers 404 when it was not). -/
def removeFromQueueM (q : List PendingSave) (i : Nat) : List PendingSave × Bool :=
  (q.filter fun e => e.id != i, q.any fun e => e.id == i)

/-- One poll cycle of `Dashboard.processQueue`: fetch the pending list, and
for each entry attempt `saveCredential` (`ok item` = the save succeeded);
on success `POST .../complete` removes the entry, on failure the `catch`
leaves it in place and the loop continues with the next entry. -/
def processQueueM (q : List PendingSave) (ok : PendingSave → Bool) :
    List PendingSave :=
  (getPendingSavesM q).foldl
    (fun acc item => if ok item then (removeFromQueueM acc item.id).1 else acc) q

/-! ### Queue lemmas -/

theorem processQueue_fold_subset (ok : PendingSave → Bool)
    (l : List PendingSave) :
    ∀ (acc : List PendingSave) (x : PendingSave),
      x ∈ l.foldl (fun acc item =>
        if ok item then (removeFromQueueM acc item.id).1 else acc) acc →
      x ∈ acc := by
  induction l with
  | nil => intro acc x hx; exact hx
  | cons a t ih =>
    intro acc x hx
    simp only [List.foldl_cons] at hx
    have hx' := ih _ x hx
    by_cases h : ok a
    · rw [if_pos h] at hx'
      exact (List.mem_filter.mp hx').1
    · rwa [if_neg h] at hx'

theorem processQueue_fold_keeps (ok : PendingSave → Bool)
    (l : List PendingSave) :
    ∀ (acc : List PendingSave) (x : PendingSave), x ∈ acc → ok x = false →
      (∀ i ∈ l, i.id = x.id → i = x) →
      x ∈ l.foldl (fun acc item =>
        if ok item then (removeFromQueueM acc item.id).1 else acc) acc := by
  induction l with
  | nil => intro acc x hx _ _; exact hx
  | cons a t ih =>
    intro acc x hx hok hinj
    simp only [List.foldl_cons]
    apply ih _ x _ hok
    · intro i hi
      exact hinj i (List.mem_cons_of_mem a hi)
    · by_cases h : ok a
      · rw [if_pos h]
        rw [removeFromQueueM]
        refine List.mem_filter.mpr ⟨hx, ?_⟩
        have hne : a.id ≠ x.id := by
          intro heq
          have := hinj a (List.mem_cons_self a t) heq
          rw [this] at h
          rw [h] at hok
          cases hok
        simpa using fun hcontra => hne hcontra.symm
      · rwa [if_neg h]

theorem processQueue_fold_drops (ok : PendingSave → Bool)
    (l : List PendingSave) :
    ∀ (acc : List PendingSave) (x : PendingSave), x ∈ l → ok x = true →
      x ∉ l.foldl (fun acc item =>
        if ok item then (removeFromQueueM acc item.id).1 else acc) acc := by
  induction l with
  | nil => intro acc x hx; cases hx
  | cons a t ih =>
    intro acc x hx hok
    simp only [List.foldl_cons]
    rcases List.mem_cons.mp hx with rfl | hxt
    · intro hmem
      have hx' := processQueue_fold_subset ok t _ x hmem
      rw [if_pos hok, removeFromQueueM] at hx'
      have := (List.mem_filter.mp hx').2
      simp at this
    · exact ih _ x hxt hok

/-! ## Claim C9 — pending-write queue acknowledgement -/

/-- C9: in one `processQueue` poll cycle over a queue with distinct entry
ids, an entry whose save attempt fails is not acknowledged — it remains in
the queue and is returned again by the next poll's `getPendingSaves`; an
entry whose save succeeds is acknowledged and removed, and is never
returned again; and an entry can only disappear from the queue by being
acknowledged after a successful save. -/
theorem c9_queue_acknowledgement (q : List PendingSave) (ok : PendingSave → Bool)
    (e : PendingSave) (hN : (q.map PendingSave.id).Nodup) (he : e ∈ q) :
    (ok e = false → e ∈ processQueueM q ok ∧
      e ∈ getPendingSavesM (processQueueM q ok)) ∧
    (ok e = true → e ∉ processQueueM q ok ∧
      e ∉ getPendingSavesM (processQueueM q ok)) ∧
    (e ∉ processQueueM q ok → ok e = true) := by
  have hinj : ∀ i ∈ q, i.id = e.id → i = e := by
    intro i hi hid
    exact List.inj_on_of_nodup_map hN hi he hid
  refine ⟨?_, ?_, ?_⟩
  · intro hok
    have hmem : e ∈ processQueueM q ok :=
      processQueue_fold_keeps ok q q e he hok hinj
    exact ⟨hmem, hmem⟩
  · intro hok
    have hmem : e ∉ processQueueM q ok :=
      processQueue_fold_drops ok q q e he hok
    exact ⟨hmem, hmem⟩
  · intro hmem
    by_cases hok : ok e = true
    · exact hok
    · exact absurd (processQueue_fold_keeps ok q q e he
        (Bool.not_eq_true _ ▸ hok) hinj) hmem

/-- C9 witness: of two queued entries, the failing save stays queued and is
retried next cycle, the succeeding save is removed. -/
theorem c9_queue_acknowledgement_witness :
    (⟨1, "a.com", "u", "p"⟩ : PendingSave) ∈
      processQueueM [⟨1, "a.com", "u", "p"⟩, ⟨2, "b.com", "v", "q"⟩]
        (fun e => e.id == 2) :=
  ((c9_queue_acknowledgement [⟨1, "a.com", "u", "p"⟩, ⟨2, "b.com", "v", "q"⟩]
      (fun e => e.id == 2) ⟨1, "a.com", "u", "p"⟩
      (by decide) (by decide)).1 (by decide)).1

end SafeKey
